import Mathlib

/-!
Verification of the overtime calculation/validation engine of the
"apphoraextraposto" web application.

The development shallowly embeds the TypeScript sources:
* `src/utils/security.ts` (file `unnamed/part_001`): `sanitizeInput`,
  `isValidTime`, `isValidDate`, `RateLimiter`;
* `src/components/AddOvertimeDialog.tsx`: `calculateOvertime`, `handleSubmit`;
* the record list component (file `unnamed/part_002`): `calculateOvertime`,
  `handleEdit`;
* the alternate creation dialog (file `unnamed/part_004`): `calculateOvertime`;
* the SQL migrations: the `overtime_records` schema and its CHECK constraints.

JavaScript numbers are IEEE-754 binary64 values.  They are embedded as exact
rationals together with an explicit rounding function `flRound` (round to
nearest, ties to even, 53-bit significand, unbounded exponent: every value
that occurs in the program is normal and far from overflow/underflow, so
gradual underflow and infinities never matter).  `NaN` is represented by
`none` in the type `JSNum := Option ℚ`.
-/

namespace Overtime

/-! ### Kernel-evaluable rational arithmetic

The standard `+`, `*`, `/` on `ℚ` are `@[irreducible]` in this toolchain, so
terms built from them cannot be settled by `decide`.  The embedding therefore
uses the following primitives, built from `mkRat` and integer arithmetic;
the lemmas `qAdd_eq` … `qFloor_eq` below prove that they agree with the
standard operations. -/

/-- The rational `i`. -/
def qOfInt (i : ℤ) : ℚ := mkRat i 1

/-- Addition on `ℚ`. -/
def qAdd (a b : ℚ) : ℚ :=
  mkRat (a.num * (b.den : ℤ) + b.num * (a.den : ℤ)) (a.den * b.den)

/-- Negation on `ℚ`. -/
def qNeg (a : ℚ) : ℚ := mkRat (-a.num) a.den

/-- Subtraction on `ℚ`. -/
def qSub (a b : ℚ) : ℚ := qAdd a (qNeg b)

/-- Multiplication on `ℚ`. -/
def qMul (a b : ℚ) : ℚ := mkRat (a.num * b.num) (a.den * b.den)

/-- Inverse on `ℚ` (`0⁻¹ = 0`). -/
def qInv (a : ℚ) : ℚ :=
  if a.num < 0 then mkRat (-(a.den : ℤ)) a.num.natAbs
  else mkRat (a.den : ℤ) a.num.natAbs

/-- Division on `ℚ`. -/
def qDiv (a b : ℚ) : ℚ := qMul a (qInv b)

/-- Strict order on `ℚ`, as a boolean (`Rat.blt` is kernel-evaluable). -/
def qLtB (a b : ℚ) : Bool := Rat.blt a b

/-- Floor of a rational. -/
def qFloor (a : ℚ) : ℤ := Int.fdiv a.num (a.den : ℤ)

/-- `2 ^ e` for an integer `e`. -/
def qPow2 (e : ℤ) : ℚ :=
  match e with
  | .ofNat n => qOfInt ((2 ^ n : ℕ) : ℤ)
  | .negSucc n => mkRat 1 (2 ^ (n + 1))

/-- Force a natural number to literal form before passing it on (call-by-name
reduction would otherwise re-evaluate it at every use). -/
def natForce (n : ℕ) (f : ℕ → α) : α :=
  match n with
  | 0 => f 0
  | m + 1 => f (m + 1)

/-- Force a rational to literal form before passing it on. -/
def qForce (x : ℚ) (f : ℚ → α) : α :=
  match x with
  | ⟨n, d, h1, h2⟩ => f ⟨n, d, h1, h2⟩

/-- Force an integer to literal form before passing it on. -/
def intForce (i : ℤ) (f : ℤ → α) : α :=
  match i with
  | .ofNat n => f (.ofNat n)
  | .negSucc n => f (.negSucc n)

/-- Number of binary digits of `n` (`0` has none); the first argument is
fuel making the recursion structural (`n` halvings always suffice). -/
def bitLenAux : ℕ → ℕ → ℕ
  | 0, _ => 0
  | fuel + 1, n =>
      match n with
      | 0 => 0
      | m + 1 => bitLenAux fuel ((m + 1) >>> 1) + 1

/-- Number of binary digits of a natural number. -/
def bitLen (n : ℕ) : ℕ := bitLenAux n n

/-- Round the positive rational `p / q` (`p ≥ 1`, reduced) to 53 significant
bits, ties to even, and negate the result when `neg` is set.  Writing
`b⋆ = bitLen`, the binade exponent of `p / q` is `e = b⋆ p - b⋆ q - δ` with
`δ = 1` exactly when `p / q < 2 ^ (b⋆ p - b⋆ q)`; the significand
`⌊p·2^(52-e)/q⌋` (with the directed/ties-even correction) is `n`, and the
result is `± n · 2 ^ (e - 52)`.  All arithmetic is on naturals, with
`t = 52 + b⋆ q + δ` so that `52 - e = t - b⋆ p`. -/
def flRoundPos (neg : Bool) (p q : ℕ) : ℚ :=
  natForce (bitLen p) fun bp =>
  natForce (bitLen q) fun bq =>
  natForce (if bp ≤ bq then (if p * 2 ^ (bq - bp) < q then 1 else 0)
            else (if p < q * 2 ^ (bp - bq) then 1 else 0)) fun dlt =>
  natForce (52 + bq + dlt) fun t =>
  natForce (if bp ≤ t then p * 2 ^ (t - bp) else p) fun num =>
  natForce (if bp ≤ t then q else q * 2 ^ (bp - t)) fun den =>
  natForce (num / den) fun n0 =>
  natForce (num % den) fun rem =>
  natForce (if 2 * rem < den then n0
            else if den < 2 * rem then n0 + 1
            else if n0 % 2 = 0 then n0 else n0 + 1) fun n =>
  if bp ≤ t then mkRat (if neg then -(n : ℤ) else (n : ℤ)) (2 ^ (t - bp))
  else mkRat ((if neg then -(n : ℤ) else (n : ℤ)) * 2 ^ (bp - t)) 1

/-- Round a rational to the nearest binary64-representable value
(round to nearest, ties to even, 53-bit significand; exponent unbounded,
which agrees with IEEE-754 on the normal range used by this program). -/
def flRound (x : ℚ) : ℚ :=
  match x with
  | ⟨Int.ofNat p, d, _, _⟩ => if p = 0 then 0 else flRoundPos false p d
  | ⟨Int.negSucc pm, d, _, _⟩ => flRoundPos true (pm + 1) d

/-- A JavaScript number: the exact value of a finite double, or `none` = NaN.
(The sources never produce infinities on the paths modelled here.) -/
abbrev JSNum := Option ℚ

/-- JS `+` on numbers. -/
def jsAdd : JSNum → JSNum → JSNum
  | some a, some b => some (flRound (qAdd a b))
  | _, _ => none

/-- JS `-` on numbers. -/
def jsSub : JSNum → JSNum → JSNum
  | some a, some b => some (flRound (qSub a b))
  | _, _ => none

/-- JS `*` on numbers. -/
def jsMul : JSNum → JSNum → JSNum
  | some a, some b => some (flRound (qMul a b))
  | _, _ => none

/-- JS `/` on numbers.  Division by zero gives an infinity in JS; it is mapped
to `none` here and never reached (the program only divides by 60 and 100). -/
def jsDiv : JSNum → JSNum → JSNum
  | some a, some b => if b = 0 then none else some (flRound (qDiv a b))
  | _, _ => none

/-- JS `<` on numbers (`false` whenever an operand is NaN). -/
def jsLt : JSNum → JSNum → Bool
  | some a, some b => qLtB a b
  | _, _ => false

/-- JS `>=` on numbers (`false` whenever an operand is NaN). -/
def jsGe : JSNum → JSNum → Bool
  | some a, some b => !qLtB a b
  | _, _ => false

/-- JS `Math.round`: nearest integer, ties toward `+∞`, computed on the exact
value of the argument; NaN propagates.  The results in this program are small
integers, hence exactly representable. -/
def jsMathRound : JSNum → JSNum
  | some a => some (qOfInt (qFloor (qAdd a (mkRat 1 2))))
  | none => none

/-- The double denoted by the literal `15.57` (`HOURLY_RATE` in all three
components). -/
def HOURLY_RATE : ℚ := flRound (mkRat 1557 100)

/-! ## String utilities (src/utils/security.ts) -/

/-- The character class trimmed by JS `String.prototype.trim`
(ECMAScript WhiteSpace and LineTerminator). -/
def isJsWhitespace (c : Char) : Bool :=
  let n := c.toNat
  n == 9 || n == 10 || n == 11 || n == 12 || n == 13 || n == 32 ||
  n == 160 || n == 5760 || (8192 ≤ n && n ≤ 8202) || n == 8232 ||
  n == 8233 || n == 8239 || n == 8287 || n == 12288 || n == 65279

/-- ASCII decimal digit (`[0-9]` in the regexes). -/
def isDigitChar (c : Char) : Bool := 48 ≤ c.toNat && c.toNat ≤ 57

/-- Numeric value of an ASCII digit. -/
def digitVal (c : Char) : ℕ := c.toNat - 48

/-- JS `s.trim()` on the character list of `s`. -/
def jsTrim (l : List Char) : List Char :=
  ((l.dropWhile isJsWhitespace).reverse.dropWhile isJsWhitespace).reverse

/-- The control characters removed by `sanitizeInput`
(regex `[\x00-\x1F\x7F]`). -/
def isCtlChar (c : Char) : Bool := c.toNat ≤ 31 || c.toNat == 127

/-- `sanitizeInput` (security.ts): trim, strip control characters, truncate to
1000 characters (`.trim().replace(/[\x00-\x1F\x7F]/g, '').substring(0, 1000)`;
`substring` counts UTF-16 units, identified with characters here — no input
field of the app produces astral-plane characters). -/
def sanitizeInput (s : String) : String :=
  ⟨((jsTrim s.data).filter (fun c => !isCtlChar c)).take 1000⟩

/-- `isValidTime` (security.ts): the regex
`/^([01]?[0-9]|2[0-3]):[0-5][0-9]$/` on the character list.  The hour group
matches one digit `0-9`, or `[01]` followed by a digit, or `2` followed by
`[0-3]`; the minute group is `[0-5][0-9]`; the match is anchored. -/
def isValidTime (l : List Char) : Bool :=
  match l with
  | [h, c, m1, m2] =>
      c == ':' && isDigitChar h &&
      (isDigitChar m1 && digitVal m1 ≤ 5) && isDigitChar m2
  | [h1, h2, c, m1, m2] =>
      c == ':' &&
      ((h1 == '0' || h1 == '1') && isDigitChar h2 ||
        (h1 == '2' && isDigitChar h2 && digitVal h2 ≤ 3)) &&
      (isDigitChar m1 && digitVal m1 ≤ 5) && isDigitChar m2
  | _ => false

/-- Gregorian leap year. -/
def isLeapYear (y : ℕ) : Bool := y % 4 == 0 && (y % 100 != 0 || y % 400 == 0)

/-- Length of a month of the proleptic Gregorian calendar. -/
def daysInMonth (y m : ℕ) : ℕ :=
  if m == 2 then (if isLeapYear y then 29 else 28)
  else if m == 4 || m == 6 || m == 9 || m == 11 then 30
  else 31

/-- `isValidDate` (security.ts): the regex `/^\d{4}-\d{2}-\d{2}$/` and then
`new Date(date)` not being `Invalid Date`.  The ECMAScript ISO parser accepts
`YYYY-MM-DD` exactly when the month is `01`–`12` and the day is within the
month; out-of-range components give an invalid date. -/
def isValidDate (l : List Char) : Bool :=
  match l with
  | [y1, y2, y3, y4, s1, m1, m2, s2, d1, d2] =>
      s1 == '-' && s2 == '-' &&
      isDigitChar y1 && isDigitChar y2 && isDigitChar y3 && isDigitChar y4 &&
      isDigitChar m1 && isDigitChar m2 && isDigitChar d1 && isDigitChar d2 &&
      (let y := 1000 * digitVal y1 + 100 * digitVal y2 + 10 * digitVal y3 + digitVal y4
       let m := 10 * digitVal m1 + digitVal m2
       let d := 10 * digitVal d1 + digitVal d2
       1 ≤ m && m ≤ 12 && 1 ≤ d && d ≤ daysInMonth y m)
  | _ => false

/-! ## The overtime calculators

Three components define a local `calculateOvertime`:
the creation dialog (`AddOvertimeDialog.tsx`), the record-edit component
(`unnamed/part_002`) — these two are textually identical — and the alternate
creation dialog (`unnamed/part_004`), which takes no lunch flag and instead
derives `lunchDiscount = totalHours >= 6`. -/

/-- JS `s.split(':')` accumulator. -/
def jsSplitColonAux : List Char → List Char → List (List Char)
  | acc, [] => [acc.reverse]
  | acc, c :: rest =>
      if c == ':' then acc.reverse :: jsSplitColonAux [] rest
      else jsSplitColonAux (c :: acc) rest

/-- JS `s.split(':')`. -/
def jsSplitColon (l : List Char) : List (List Char) := jsSplitColonAux [] l

/-- JS `Number(s)` restricted to the shapes reachable from the time fields:
an empty/whitespace string is `0`, a (trimmed) digit string denotes its value
rounded to a double, anything else is treated as NaN.  (Other numeric
literal forms that `Number` accepts never occur: the fields are `HH:MM`
fragments split at `:`.) -/
def jsNumber (l : List Char) : JSNum :=
  let t := jsTrim l
  if t.isEmpty then some 0
  else if t.all isDigitChar then
    some (flRound (qOfInt ((t.foldl (fun a c => 10 * a + digitVal c) 0 : ℕ) : ℤ)))
  else none

/-- `time.split(':').map(Number)` destructured as `[hour, minute]`; a missing
second component is `undefined`, which behaves as NaN in the arithmetic. -/
def parseTimeParts (l : List Char) : JSNum × JSNum :=
  match (jsSplitColon l).map jsNumber with
  | [] => (none, none)
  | [h] => (h, none)
  | h :: m :: _ => (h, m)

/-- The result object of the calculators. -/
structure CalcResult where
  totalHours : JSNum
  lunchDiscount : Bool
  netHours : JSNum
  totalValue : JSNum
  deriving DecidableEq, Repr

/-- `calculateOvertime` of `AddOvertimeDialog.tsx` (lines 35–58). -/
def calculateOvertimeDialog (startTime endTime : String) (hasLunch : Bool) :
    Option CalcResult :=
  if startTime = "" ∨ endTime = "" then none
  else
    let se := parseTimeParts startTime.data
    let ee := parseTimeParts endTime.data
    let startMinutes := jsAdd (jsMul se.1 (some 60)) se.2
    let endMinutes := jsAdd (jsMul ee.1 (some 60)) ee.2
    let tm0 := jsSub endMinutes startMinutes
    let totalMinutes := if jsLt tm0 (some 0) then jsAdd tm0 (some 1440) else tm0
    let totalHours := jsDiv totalMinutes (some 60)
    let lunchDiscount := hasLunch
    let netHours := if lunchDiscount then jsSub totalHours (some 1) else totalHours
    let totalValue := jsMul netHours (some HOURLY_RATE)
    some
      { totalHours := jsDiv (jsMathRound (jsMul totalHours (some 100))) (some 100)
        lunchDiscount := lunchDiscount
        netHours := jsDiv (jsMathRound (jsMul netHours (some 100))) (some 100)
        totalValue := jsDiv (jsMathRound (jsMul totalValue (some 100))) (some 100) }

/-- `calculateOvertime` of the record-edit component (`unnamed/part_002`,
lines 722–745); textually identical to the dialog's. -/
def calculateOvertimeEdit (startTime endTime : String) (hasLunch : Bool) :
    Option CalcResult :=
  if startTime = "" ∨ endTime = "" then none
  else
    let se := parseTimeParts startTime.data
    let ee := parseTimeParts endTime.data
    let startMinutes := jsAdd (jsMul se.1 (some 60)) se.2
    let endMinutes := jsAdd (jsMul ee.1 (some 60)) ee.2
    let tm0 := jsSub endMinutes startMinutes
    let totalMinutes := if jsLt tm0 (some 0) then jsAdd tm0 (some 1440) else tm0
    let totalHours := jsDiv totalMinutes (some 60)
    let lunchDiscount := hasLunch
    let netHours := if lunchDiscount then jsSub totalHours (some 1) else totalHours
    let totalValue := jsMul netHours (some HOURLY_RATE)
    some
      { totalHours := jsDiv (jsMathRound (jsMul totalHours (some 100))) (some 100)
        lunchDiscount := lunchDiscount
        netHours := jsDiv (jsMathRound (jsMul netHours (some 100))) (some 100)
        totalValue := jsDiv (jsMathRound (jsMul totalValue (some 100))) (some 100) }

/-- `calculateOvertime` of the alternate creation dialog (`unnamed/part_004`,
lines 33–56): no lunch parameter; `lunchDiscount = totalHours >= 6`. -/
def calculateOvertimeAlt (startTime endTime : String) : Option CalcResult :=
  if startTime = "" ∨ endTime = "" then none
  else
    let se := parseTimeParts startTime.data
    let ee := parseTimeParts endTime.data
    let startMinutes := jsAdd (jsMul se.1 (some 60)) se.2
    let endMinutes := jsAdd (jsMul ee.1 (some 60)) ee.2
    let tm0 := jsSub endMinutes startMinutes
    let totalMinutes := if jsLt tm0 (some 0) then jsAdd tm0 (some 1440) else tm0
    let totalHours := jsDiv totalMinutes (some 60)
    let lunchDiscount := jsGe totalHours (some 6)
    let netHours := if lunchDiscount then jsSub totalHours (some 1) else totalHours
    let totalValue := jsMul netHours (some HOURLY_RATE)
    some
      { totalHours := jsDiv (jsMathRound (jsMul totalHours (some 100))) (some 100)
        lunchDiscount := lunchDiscount
        netHours := jsDiv (jsMathRound (jsMul netHours (some 100))) (some 100)
        totalValue := jsDiv (jsMathRound (jsMul totalValue (some 100))) (some 100) }

/-- The boolean `totalHours >= 6` that `unnamed/part_004` uses as its lunch
flag, as a function of the two time strings. -/
def altLunchFlag (startTime endTime : String) : Bool :=
  let se := parseTimeParts startTime.data
  let ee := parseTimeParts endTime.data
  let startMinutes := jsAdd (jsMul se.1 (some 60)) se.2
  let endMinutes := jsAdd (jsMul ee.1 (some 60)) ee.2
  let tm0 := jsSub endMinutes startMinutes
  let totalMinutes := if jsLt tm0 (some 0) then jsAdd tm0 (some 1440) else tm0
  jsGe (jsDiv totalMinutes (some 60)) (some 6)

/-! ## Date handling of the submit flow

`handleSubmit` parses the submitted date with `new Date(sanitizedDate)`
(UTC midnight of the calendar date, per the ECMAScript date-only ISO form)
and compares it with `new Date()` whose hours were set to `23:59:59.999`
local time.  Times are parameters: `now` is the clock in ms since the epoch,
`off` the value of `getTimezoneOffset()` in minutes (positive west of UTC). -/

/-- `YYYY-MM-DD` → components, for calendar-valid strings only (the ISO
parser yields an invalid date otherwise, modelled `none`). -/
def parseDateYMD (l : List Char) : Option (ℕ × ℕ × ℕ) :=
  match l with
  | [y1, y2, y3, y4, s1, m1, m2, s2, d1, d2] =>
      if isValidDate [y1, y2, y3, y4, s1, m1, m2, s2, d1, d2] then
        some (1000 * digitVal y1 + 100 * digitVal y2 + 10 * digitVal y3 + digitVal y4,
          10 * digitVal m1 + digitVal m2, 10 * digitVal d1 + digitVal d2)
      else none
  | _ => none

/-- Days from 1970-01-01 of a civil date (standard `days_from_civil`
algorithm; the `/` on nonnegative operands agrees with C truncation). -/
def daysFromCivil (y : ℤ) (m d : ℕ) : ℤ :=
  let y' : ℤ := if m ≤ 2 then y - 1 else y
  let era : ℤ := (if 0 ≤ y' then y' else y' - 399) / 400
  let yoe : ℤ := y' - era * 400
  let mp : ℤ := (m : ℤ) + (if 2 < m then -3 else 9)
  let doy : ℤ := (153 * mp + 2) / 5 + (d : ℤ) - 1
  let doe : ℤ := yoe * 365 + yoe / 4 - yoe / 100 + doy
  era * 146097 + doe - 719468

/-- The local calendar day (days from epoch) of the instant `now` in a zone
with `getTimezoneOffset() = off` minutes. -/
def localDayOf (off now : ℤ) : ℤ := Int.fdiv (now - off * 60000) 86400000

/-- Timestamp of `new Date()` after `setHours(23, 59, 59, 999)`:
the last millisecond of the local day of `now`. -/
def localEndOfTodayTs (off now : ℤ) : ℤ :=
  localDayOf off now * 86400000 + 86399999 + off * 60000

/-- The future-date rejection test of `handleSubmit`
(`inputDate > today` on timestamps): UTC midnight of the parsed date against
the local end of today.  An unparseable date compares `false` (NaN). -/
def futureRejectCheck (off now : ℤ) (l : List Char) : Bool :=
  match parseDateYMD l with
  | some (y, m, d) =>
      decide (daysFromCivil (y : ℤ) m d * 86400000 > localEndOfTodayTs off now)
  | none => false

/-- Whether the submitted calendar date is strictly after the local calendar
date of `now` — the property the spec states for the future-date check. -/
def dateStrictlyAfterLocalToday (off now : ℤ) (l : List Char) : Bool :=
  match parseDateYMD l with
  | some (y, m, d) => decide (daysFromCivil (y : ℤ) m d > localDayOf off now)
  | none => false

/-- Minutes-of-day denoted by `new Date('2000-01-01T' + t)`: the ISO parser
requires a two-digit `HH:MM` with hour ≤ 23 and minute ≤ 59; any other string
yields an invalid date (NaN timestamp), modelled `none`.  (For non-ISO
fallback formats engine behaviour is implementation-defined; no theorem below
depends on that region.) -/
def isoTimeMinutes (l : List Char) : Option ℕ :=
  match l with
  | [h1, h2, c, m1, m2] =>
      if c == ':' && isDigitChar h1 && isDigitChar h2 && isDigitChar m1 &&
          isDigitChar m2 && 10 * digitVal h1 + digitVal h2 ≤ 23 &&
          10 * digitVal m1 + digitVal m2 ≤ 59 then
        some ((10 * digitVal h1 + digitVal h2) * 60 + (10 * digitVal m1 + digitVal m2))
      else none
  | _ => none

/-- JS `start >= end` on two `Date` timestamps (`false` if either is NaN). -/
def jsDateGe (a b : Option ℕ) : Bool :=
  match a, b with
  | some x, some y => decide (y ≤ x)
  | _, _ => false

/-! ## The creation submit flow (`AddOvertimeDialog.tsx`, `handleSubmit`) -/

/-- Validation failures of `handleSubmit`.  `aborted` is the silent early
return when `user` or `calculation` is null; the others are the thrown
errors, in source order. -/
inductive SubmitError where
  | aborted
  | missingField
  | invalidDate
  | invalidTime
  | futureDate
  | invalidTimeRange
  deriving DecidableEq, Repr

/-- The row sent to `supabase.from('overtime_records').insert(...)`. -/
structure InsertPayload where
  user_id : String
  date : String
  start_time : String
  end_time : String
  total_hours : JSNum
  lunch_discount : Bool
  net_hours : JSNum
  hourly_rate : ℚ
  total_value : JSNum
  deriving DecidableEq, Repr

/-- The object literal passed to `insert` by `handleSubmit`. -/
def insertRowOf (userId date startTime endTime : String) (lunchDiscount : Bool)
    (c0 : CalcResult) : InsertPayload :=
  { user_id := userId
    date := date
    start_time := startTime
    end_time := endTime
    total_hours := c0.totalHours
    lunch_discount := lunchDiscount
    net_hours := c0.netHours
    hourly_rate := HOURLY_RATE
    total_value := c0.totalValue }

/-- `handleSubmit` of `AddOvertimeDialog.tsx` (lines 89–158) up to the
insert: either a thrown validation error or the inserted row.  `calculation`
and `lunchDiscount` are the component state at submit time. -/
def handleSubmit (off now : ℤ) (userId : String)
    (date startTime endTime : String) (lunchDiscount : Bool)
    (calculation : Option CalcResult) : Except SubmitError InsertPayload :=
  match calculation with
  | none => .error .aborted
  | some c0 =>
    if date = "" ∨ startTime = "" ∨ endTime = "" then .error .missingField
    else
      let sanitizedDate := sanitizeInput date
      let sanitizedStartTime := sanitizeInput startTime
      let sanitizedEndTime := sanitizeInput endTime
      if !isValidDate sanitizedDate.data then .error .invalidDate
      else if !(isValidTime sanitizedStartTime.data && isValidTime sanitizedEndTime.data) then
        .error .invalidTime
      else if futureRejectCheck off now sanitizedDate.data then .error .futureDate
      else if jsDateGe (isoTimeMinutes sanitizedStartTime.data)
          (isoTimeMinutes sanitizedEndTime.data) then .error .invalidTimeRange
      else
        .ok (insertRowOf userId sanitizedDate sanitizedStartTime sanitizedEndTime
          lunchDiscount c0)

/-- The CHECK constraint `overtime_records_net_hours_positive`
(`net_hours > 0`) of migration `20250124000000_security_enhancements.sql`:
the database accepts the row only when this holds. -/
def dbNetHoursPositive (p : InsertPayload) : Bool :=
  match p.net_hours with
  | some q => qLtB 0 q
  | none => false

/-! ## The edit flow (`unnamed/part_002`, `handleEdit`) -/

/-- Validation failures of `handleEdit`, in source order. -/
inductive EditError where
  | missingField
  | invalidDate
  | invalidTime
  | calcFailed
  deriving DecidableEq, Repr

/-- The object passed to `supabase.from('overtime_records').update(...)`:
exactly these seven columns. -/
structure UpdatePayload where
  date : String
  start_time : String
  end_time : String
  total_hours : JSNum
  lunch_discount : Bool
  net_hours : JSNum
  total_value : JSNum
  deriving DecidableEq, Repr

/-- The object literal passed to `update` by `handleEdit`. -/
def updateRowOf (date startTime endTime : String) (lunchDiscount : Bool)
    (c : CalcResult) : UpdatePayload :=
  { date := date
    start_time := startTime
    end_time := endTime
    total_hours := c.totalHours
    lunch_discount := lunchDiscount
    net_hours := c.netHours
    total_value := c.totalValue }

/-- `handleEdit` of the record-edit component (`unnamed/part_002`,
lines 747–799) up to the update call. -/
def handleEdit (date startTime endTime : String) (lunchDiscount : Bool) :
    Except EditError UpdatePayload :=
  if date = "" ∨ startTime = "" ∨ endTime = "" then .error .missingField
  else
    let sanitizedDate := sanitizeInput date
    let sanitizedStartTime := sanitizeInput startTime
    let sanitizedEndTime := sanitizeInput endTime
    if !isValidDate sanitizedDate.data then .error .invalidDate
    else if !(isValidTime sanitizedStartTime.data && isValidTime sanitizedEndTime.data) then
      .error .invalidTime
    else
      match calculateOvertimeEdit sanitizedStartTime sanitizedEndTime lunchDiscount with
      | none => .error .calcFailed
      | some c =>
          .ok (updateRowOf sanitizedDate sanitizedStartTime sanitizedEndTime
            lunchDiscount c)

/-- A row of `public.overtime_records` (schema of `unnamed/part_000`).
Numeric columns hold the transmitted JS numbers; `updated_at` is maintained
by the `update_overtime_records_updated_at` trigger. -/
structure OvertimeRow where
  id : String
  user_id : String
  date : String
  start_time : String
  end_time : String
  total_hours : JSNum
  lunch_discount : Bool
  net_hours : JSNum
  hourly_rate : ℚ
  total_value : JSNum
  created_at : ℤ
  updated_at : ℤ
  deriving DecidableEq, Repr

/-- Effect on the matched row of
`update({date, start_time, end_time, total_hours, lunch_discount, net_hours,
total_value})`: exactly the seven listed columns are set; `updated_at` is set
by the database trigger to the update time `trigNow`. -/
def applyUpdate (r : OvertimeRow) (p : UpdatePayload) (trigNow : ℤ) : OvertimeRow :=
  { r with
    date := p.date
    start_time := p.start_time
    end_time := p.end_time
    total_hours := p.total_hours
    lunch_discount := p.lunch_discount
    net_hours := p.net_hours
    total_value := p.total_value
    updated_at := trigNow }

/-! ## The rate limiter (security.ts, class `RateLimiter`) -/

/-- An entry of the `attempts` map. -/
structure RLEntry where
  count : ℕ
  resetTime : ℤ
  deriving DecidableEq, Repr

/-- The `attempts` map, as an association list (only `get`/`set`/`delete`
are used, so the representation is observationally faithful). -/
abbrev RLState := List (String × RLEntry)

/-- `Map.set`. -/
def rlSet (st : RLState) (k : String) (v : RLEntry) : RLState :=
  (k, v) :: st.filter (fun p => !(p.1 == k))

/-- `RateLimiter.isAllowed`; `maxAttempts`/`windowMs` are the constructor
arguments (defaults 5 and 15·60·1000), `now` the value of `Date.now()`. -/
def rlIsAllowed (maxAttempts : ℕ) (windowMs : ℤ) (st : RLState) (key : String)
    (now : ℤ) : Bool × RLState :=
  match st.lookup key with
  | none => (true, rlSet st key ⟨1, now + windowMs⟩)
  | some attempt =>
      if attempt.resetTime < now then (true, rlSet st key ⟨1, now + windowMs⟩)
      else if maxAttempts ≤ attempt.count then (false, st)
      else (true, rlSet st key ⟨attempt.count + 1, attempt.resetTime⟩)

/-- `RateLimiter.reset` (`Map.delete`). -/
def rlReset (st : RLState) (key : String) : RLState :=
  st.filter (fun p => !(p.1 == key))

/-- A sequence of `isAllowed` calls on one key at the given times. -/
def rlRun (maxAttempts : ℕ) (windowMs : ℤ) (st : RLState) (key : String) :
    List ℤ → List Bool × RLState
  | [] => ([], st)
  | t :: ts =>
      let step := rlIsAllowed maxAttempts windowMs st key t
      let rest := rlRun maxAttempts windowMs step.2 key ts
      (step.1 :: rest.1, rest.2)

deriving instance DecidableEq for Except

/-- Whether an `Except` result is a success. -/
def isOkE : Except ε α → Bool
  | .ok _ => true
  | .error _ => false

/-! ## Specification-side definitions

These formalise the wording of the specification/claims; the claim theorems
compare them with the embedded code. -/

/-- Round-half-up to an integer, the `round(x*100)/100` semantics the spec
ascribes to `Math.round`. -/
def roundHalfUp (x : ℚ) : ℤ := qFloor (qAdd x (mkRat 1 2))

/-- The double printed as the 2-decimal value `n/100` — what the program
computes when it divides an integer cent count by `100`. -/
def cents100 (n : ℤ) : ℚ := flRound (qDiv (qOfInt n) 100)

/-- The integer cent count `Math.round(x * 100)` computes on an exact
double `x` (the multiplication is a double multiplication). -/
def round2cents (x : ℚ) : ℤ := qFloor (qAdd (flRound (qMul x 100)) (mkRat 1 2))

/-- `Math.round(x * 100) / 100` of the calculators, on an exact double. -/
def round2 (x : ℚ) : ℚ := cents100 (round2cents x)

/-- The calculator body after time parsing: the result for a wrapped shift
length of `tm` minutes (the value `totalMinutes` has after the overnight
correction). -/
def calcOfTotalMinutes (tm : ℤ) (lunch : Bool) : CalcResult :=
  qForce (flRound (qDiv (qOfInt tm) 60)) fun totalHours =>
  qForce (if lunch then flRound (qSub totalHours 1) else totalHours) fun netHours =>
  qForce (flRound (qMul netHours HOURLY_RATE)) fun totalValue =>
  ⟨some (round2 totalHours), lunch, some (round2 netHours), some (round2 totalValue)⟩

/-- The claim's well-formed 24-hour `HH:MM` clock value: two-digit hour
`00`–`23`, colon, two-digit minute `00`–`59`. -/
def isHHMMClock (l : List Char) : Bool :=
  match l with
  | [h1, h2, c, m1, m2] =>
      c == ':' && isDigitChar h1 && isDigitChar h2 && isDigitChar m1 &&
      isDigitChar m2 && decide (10 * digitVal h1 + digitVal h2 ≤ 23) &&
      decide (10 * digitVal m1 + digitVal m2 ≤ 59)
  | _ => false

/-- Minutes since midnight denoted by an `HH:MM` clock string. -/
def clockMinutesHHMM (l : List Char) : ℕ :=
  match l with
  | [h1, h2, _, m1, m2] =>
      (10 * digitVal h1 + digitVal h2) * 60 + (10 * digitVal m1 + digitVal m2)
  | _ => 0

/-- The claim's `deltaMinutes`: `endMinutes - startMinutes`, plus 1440 when
that difference is negative. -/
def wrapDelta (sm em : ℕ) : ℕ := if em < sm then em + 1440 - sm else em - sm

/-- The exact (real-arithmetic) unrounded net hours for a shift of `tm`
minutes: `tm/60`, minus 1 with the lunch flag. -/
def netHoursExact (tm : ℕ) (lunch : Bool) : ℚ :=
  qSub (qDiv (qOfInt (tm : ℤ)) 60) (if lunch then 1 else 0)

/-- The exact value `netHours * 15.57 * 100` of the claim's `totalValue`
formula (`15.57` read as the real `1557/100`). -/
def claimedValueExact (tm : ℕ) (lunch : Bool) : ℚ :=
  qMul (qMul (netHoursExact tm lunch) (mkRat 1557 100)) 100

/-- Per-shift check of the amended C1 statement: the computed result has the
claimed `totalHours` and `netHours` cents, and its `totalValue` cents are the
claimed round-half-up value, except that when `netHours·1557` is an exact
half-integer the floating-point product may land just below the tie and
round to the next cent down. -/
def amendedOK (tm : ℕ) (lunch : Bool) : Bool :=
  qForce (netHoursExact tm lunch) fun nhx =>
  qForce (claimedValueExact tm lunch) fun x =>
  qForce (flRound (qDiv (qOfInt (tm : ℤ)) 60)) fun totalHours =>
  qForce (if lunch then flRound (qSub totalHours 1) else totalHours) fun netHours =>
  qForce (flRound (qMul netHours HOURLY_RATE)) fun totalValue =>
  intForce (round2cents totalValue) fun tvc =>
  (round2cents totalHours == roundHalfUp (qMul (qDiv (qOfInt (tm : ℤ)) 60) 100)) &&
  (round2cents netHours == roundHalfUp (qMul nhx 100)) &&
  (tvc == roundHalfUp x ||
    ((qMul 2 x).den == 1 && tvc == -(roundHalfUp (qNeg x))))

/-- `amendedOK` for both lunch-flag values. -/
def amendedBoth (tm : ℕ) : Bool := amendedOK tm true && amendedOK tm false

/-- `f` holds on `start`, …, `start + len - 1` (finite checks are split into
ranges of this form to keep kernel reduction depth bounded). -/
def allInRange (f : ℕ → Bool) (start len : ℕ) : Bool :=
  (List.range len).all (fun i => f (start + i))

/-- `flRound` is the identity on small integers, stated in checkable form
(`n` ranges over `[0, 2881)`, encoding the integers `[-1440, 1440]`). -/
def flrIntChk (n : ℕ) : Bool :=
  flRound (qOfInt ((n : ℤ) - 1440)) == qOfInt ((n : ℤ) - 1440)

/-! ## Finite verification lemmas

The per-shift check `amendedBoth` is verified for every shift length
`0 ≤ tm < 1440`, and the small-integer exactness of `flRound` for
`[-1440, 1440]`, by kernel evaluation over bounded ranges. -/

theorem allInRange_iff (f : ℕ → Bool) (s l : ℕ) :
    allInRange f s l = true ↔ ∀ i, i < l → f (s + i) = true := by
  simp [allInRange, List.all_eq_true, List.mem_range]

set_option maxRecDepth 40000 in
set_option maxHeartbeats 4000000 in
theorem amendedChunk0 : allInRange amendedBoth 0 180 = true := by decide

set_option maxRecDepth 40000 in
set_option maxHeartbeats 4000000 in
theorem amendedChunk1 : allInRange amendedBoth 180 180 = true := by decide

set_option maxRecDepth 40000 in
set_option maxHeartbeats 4000000 in
theorem amendedChunk2 : allInRange amendedBoth 360 180 = true := by decide

set_option maxRecDepth 40000 in
set_option maxHeartbeats 4000000 in
theorem amendedChunk3 : allInRange amendedBoth 540 180 = true := by decide

set_option maxRecDepth 40000 in
set_option maxHeartbeats 4000000 in
theorem amendedChunk4 : allInRange amendedBoth 720 180 = true := by decide

set_option maxRecDepth 40000 in
set_option maxHeartbeats 4000000 in
theorem amendedChunk5 : allInRange amendedBoth 900 180 = true := by decide

set_option maxRecDepth 40000 in
set_option maxHeartbeats 4000000 in
theorem amendedChunk6 : allInRange amendedBoth 1080 180 = true := by decide

set_option maxRecDepth 40000 in
set_option maxHeartbeats 4000000 in
theorem amendedChunk7 : allInRange amendedBoth 1260 180 = true := by decide

theorem amendedOK_all (tm : ℕ) (h : tm < 1440) (lunch : Bool) :
    amendedOK tm lunch = true := by
  have hb : amendedBoth tm = true := by
    rcases Nat.lt_or_ge tm 180 with h1 | h1
    · simpa using (allInRange_iff _ _ _).mp amendedChunk0 tm h1
    · rcases Nat.lt_or_ge tm 360 with h2 | h2
      · have := (allInRange_iff _ _ _).mp amendedChunk1 (tm - 180) (by omega)
        simpa [Nat.add_sub_cancel' h1] using this
      · rcases Nat.lt_or_ge tm 540 with h3 | h3
        · have := (allInRange_iff _ _ _).mp amendedChunk2 (tm - 360) (by omega)
          simpa [Nat.add_sub_cancel' h2] using this
        · rcases Nat.lt_or_ge tm 720 with h4 | h4
          · have := (allInRange_iff _ _ _).mp amendedChunk3 (tm - 540) (by omega)
            simpa [Nat.add_sub_cancel' h3] using this
          · rcases Nat.lt_or_ge tm 900 with h5 | h5
            · have := (allInRange_iff _ _ _).mp amendedChunk4 (tm - 720) (by omega)
              simpa [Nat.add_sub_cancel' h4] using this
            · rcases Nat.lt_or_ge tm 1080 with h6 | h6
              · have := (allInRange_iff _ _ _).mp amendedChunk5 (tm - 900) (by omega)
                simpa [Nat.add_sub_cancel' h5] using this
              · rcases Nat.lt_or_ge tm 1260 with h7 | h7
                · have := (allInRange_iff _ _ _).mp amendedChunk6 (tm - 1080) (by omega)
                  simpa [Nat.add_sub_cancel' h6] using this
                · have := (allInRange_iff _ _ _).mp amendedChunk7 (tm - 1260) (by omega)
                  simpa [Nat.add_sub_cancel' h7] using this
  have hb' := hb
  unfold amendedBoth at hb'
  rw [Bool.and_eq_true] at hb'
  cases lunch
  · exact hb'.2
  · exact hb'.1

set_option maxRecDepth 60000 in
set_option maxHeartbeats 2000000 in
theorem flrChunk0 : allInRange flrIntChk 0 500 = true := by decide

set_option maxRecDepth 60000 in
set_option maxHeartbeats 2000000 in
theorem flrChunk1 : allInRange flrIntChk 500 500 = true := by decide

set_option maxRecDepth 60000 in
set_option maxHeartbeats 2000000 in
theorem flrChunk2 : allInRange flrIntChk 1000 500 = true := by decide

set_option maxRecDepth 60000 in
set_option maxHeartbeats 2000000 in
theorem flrChunk3 : allInRange flrIntChk 1500 500 = true := by decide

set_option maxRecDepth 60000 in
set_option maxHeartbeats 2000000 in
theorem flrChunk4 : allInRange flrIntChk 2000 500 = true := by decide

set_option maxRecDepth 60000 in
set_option maxHeartbeats 2000000 in
theorem flrChunk5 : allInRange flrIntChk 2500 381 = true := by decide

/-- `flRound` is the identity on the integers `[-1440, 1440]`. -/
theorem flRound_int_small (i : ℤ) (h1 : -1440 ≤ i) (h2 : i ≤ 1440) :
    flRound (qOfInt i) = qOfInt i := by
  have hn : ((i + 1440).toNat : ℤ) - 1440 = i := by omega
  have hlt : (i + 1440).toNat < 2881 := by omega
  have hc : flrIntChk (i + 1440).toNat = true := by
    set n := (i + 1440).toNat with hdef
    rcases Nat.lt_or_ge n 500 with h1' | h1'
    · simpa using (allInRange_iff _ _ _).mp flrChunk0 n h1'
    · rcases Nat.lt_or_ge n 1000 with h2' | h2'
      · have := (allInRange_iff _ _ _).mp flrChunk1 (n - 500) (by omega)
        simpa [Nat.add_sub_cancel' h1'] using this
      · rcases Nat.lt_or_ge n 1500 with h3' | h3'
        · have := (allInRange_iff _ _ _).mp flrChunk2 (n - 1000) (by omega)
          simpa [Nat.add_sub_cancel' h2'] using this
        · rcases Nat.lt_or_ge n 2000 with h4' | h4'
          · have := (allInRange_iff _ _ _).mp flrChunk3 (n - 1500) (by omega)
            simpa [Nat.add_sub_cancel' h3'] using this
          · rcases Nat.lt_or_ge n 2500 with h5' | h5'
            · have := (allInRange_iff _ _ _).mp flrChunk4 (n - 2000) (by omega)
              simpa [Nat.add_sub_cancel' h4'] using this
            · have := (allInRange_iff _ _ _).mp flrChunk5 (n - 2500) (by omega)
              simpa [Nat.add_sub_cancel' h5'] using this
  unfold flrIntChk at hc
  rw [hn] at hc
  exact beq_iff_eq.mp hc

/-! ## Agreement of the executable rational layer with the standard operations -/

theorem natForce_eq (n : ℕ) (f : ℕ → α) : natForce n f = f n := by
  cases n <;> rfl

theorem intForce_eq (i : ℤ) (f : ℤ → α) : intForce i f = f i := by
  cases i <;> rfl

theorem qForce_eq (x : ℚ) (f : ℚ → α) : qForce x f = f x := by
  cases x
  rfl

theorem qOfInt_eq (i : ℤ) : qOfInt i = (i : ℚ) := Rat.mkRat_one i

theorem qNeg_eq (a : ℚ) : qNeg a = -a := by
  rw [qNeg, Rat.mkRat_eq_divInt, ← Rat.neg_divInt, Rat.num_divInt_den]

theorem qAdd_eq (a b : ℚ) : qAdd a b = a + b := by
  rw [qAdd, Rat.mkRat_eq_divInt]
  push_cast
  conv_rhs =>
    rw [← Rat.num_divInt_den a, ← Rat.num_divInt_den b,
      Rat.divInt_add_divInt _ _ (Int.natCast_ne_zero.mpr a.den_nz)
        (Int.natCast_ne_zero.mpr b.den_nz)]

theorem qSub_eq (a b : ℚ) : qSub a b = a - b := by
  rw [qSub, qAdd_eq, qNeg_eq, sub_eq_add_neg]

theorem qMul_eq (a b : ℚ) : qMul a b = a * b := by
  rw [qMul, Rat.mkRat_eq_divInt]
  push_cast
  rw [← Rat.divInt_mul_divInt' a.num (a.den : ℤ) b.num (b.den : ℤ),
    Rat.num_divInt_den, Rat.num_divInt_den]

theorem qInv_eq (a : ℚ) : qInv a = a⁻¹ := by
  rw [qInv, Rat.inv_def']
  rcases lt_trichotomy a.num 0 with h | h | h
  · rw [if_pos h, Rat.mkRat_eq_divInt, Int.ofNat_natAbs_of_nonpos (le_of_lt h)]
    rw [← Rat.neg_divInt_neg, neg_neg, Int.neg_neg]
  · rw [if_neg (by omega), h, Int.natAbs_zero, Rat.mkRat_zero, Rat.divInt_zero]
  · rw [if_neg (by omega), Rat.mkRat_eq_divInt, Int.natAbs_of_nonneg (le_of_lt h)]

theorem qDiv_eq (a b : ℚ) : qDiv a b = a / b := by
  rw [qDiv, qMul_eq, qInv_eq, div_eq_mul_inv]

theorem qFloor_eq (a : ℚ) : qFloor a = ⌊a⌋ := by
  rw [qFloor, Int.fdiv_eq_ediv _ (by exact_mod_cast Nat.zero_le a.den), Rat.floor_def]

theorem qLtB_iff (a b : ℚ) : qLtB a b = true ↔ a < b := Iff.rfl

/-- `roundHalfUp` is `⌊x + 1/2⌋`, the round-half-up of the specification. -/
theorem roundHalfUp_eq (x : ℚ) : roundHalfUp x = ⌊x + 1 / 2⌋ := by
  rw [roundHalfUp, qFloor_eq, qAdd_eq]
  norm_num

/-! ## Claim C5 -/

/-- C5 counterexample: at the triple (08:00, 10:00, lunch = true) the
alternate dialog's calculator disagrees with the creation dialog's — it
ignores the flag and computes `lunchDiscount = totalHours >= 6 = false`,
`netHours = 2`, while the creation dialog returns `netHours = 1`. -/
theorem C5_counterexample :
    calculateOvertimeAlt "08:00" "10:00" ≠
      calculateOvertimeDialog "08:00" "10:00" true ∧
    (calculateOvertimeAlt "08:00" "10:00").map CalcResult.netHours =
      some (some 2) ∧
    (calculateOvertimeDialog "08:00" "10:00" true).map CalcResult.netHours =
      some (some 1) := by
  refine ⟨?_, by decide, by decide⟩
  decide

/-- C5 (amended): the creation-dialog and record-edit calculators agree on
every input triple; the alternate dialog's calculator takes no lunch flag —
it equals the creation dialog's calculator applied to the flag
`totalHours >= 6` it derives itself (`altLunchFlag`), so the three agree
exactly when the supplied flag matches that threshold. -/
theorem C5_amended (startTime endTime : String) (hasLunch : Bool) :
    calculateOvertimeDialog startTime endTime hasLunch =
      calculateOvertimeEdit startTime endTime hasLunch ∧
    calculateOvertimeAlt startTime endTime =
      calculateOvertimeDialog startTime endTime
        (altLunchFlag startTime endTime) :=
  ⟨rfl, rfl⟩

/-! ## Boolean conjunction helpers -/

theorem band_iff (a b : Bool) : (a && b) = true ↔ a = true ∧ b = true := by
  simp

theorem bor_iff (a b : Bool) : (a || b) = true ↔ a = true ∨ b = true := by
  simp

/-! ## Claim C7 -/

/-- C7, the claim's pipeline in its own words: trim leading and trailing
whitespace, then delete every ASCII control character (0x00–0x1F and 0x7F),
then truncate to the first 1000 characters. -/
def sanitizeSpec (s : String) : String :=
  ⟨((((s.data.dropWhile isJsWhitespace).reverse.dropWhile
      isJsWhitespace).reverse).filter
      (fun c => !(decide (c.toNat ≤ 31) || decide (c.toNat = 127)))).take 1000⟩

/-- C7: `sanitizeInput` equals trimming, then control-character removal, then
truncation to 1000 characters; in particular its output never exceeds 1000
characters. -/
theorem C7_sanitize (s : String) :
    sanitizeInput s = sanitizeSpec s ∧ (sanitizeInput s).length ≤ 1000 := by
  constructor
  · unfold sanitizeInput sanitizeSpec jsTrim
    congr 1
  · unfold sanitizeInput String.length
    simpa using List.length_take_le 1000 _

/-! ## Claim C8 -/

/-- C8 counterexample: the regex accepts the single-digit-hour string
`9:30`, which is not of the two-digit `HH:MM` shape the claim describes. -/
theorem C8_counterexample :
    isValidTime "9:30".data = true ∧ isHHMMClock "9:30".data = false := by
  decide

/-- C8 (amended): the clock strings `H:MM` or `HH:MM` whose hour value is
0–23 (a single-digit hour is allowed) and whose minute is a two-digit value
00–59. -/
def isClockTimeLoose (l : List Char) : Bool :=
  match l with
  | [h, c, m1, m2] =>
      c == ':' && isDigitChar h && isDigitChar m1 && isDigitChar m2 &&
      decide (10 * digitVal m1 + digitVal m2 ≤ 59)
  | [h1, h2, c, m1, m2] =>
      c == ':' && isDigitChar h1 && isDigitChar h2 && isDigitChar m1 &&
      isDigitChar m2 && decide (10 * digitVal h1 + digitVal h2 ≤ 23) &&
      decide (10 * digitVal m1 + digitVal m2 ≤ 59)
  | _ => false

theorem char_eq_of_toNat_eq {a b : Char} (h : a.toNat = b.toNat) : a = b :=
  Char.ext (UInt32.ext h)

theorem isDigitChar_iff (c : Char) :
    isDigitChar c = true ↔ 48 ≤ c.toNat ∧ c.toNat ≤ 57 := by
  unfold isDigitChar
  simp [band_iff]

/-- The regex hour group `([01]?[0-9]|2[0-3])`, restricted to two characters,
accepts exactly the two-digit values 00–23. -/
theorem hourGroup_iff (h1 h2 : Char) :
    ((h1 == '0' || h1 == '1') && isDigitChar h2 ||
      (h1 == '2' && isDigitChar h2 && decide (digitVal h2 ≤ 3))) = true ↔
    isDigitChar h1 = true ∧ isDigitChar h2 = true ∧
      10 * digitVal h1 + digitVal h2 ≤ 23 := by
  unfold digitVal
  constructor
  · intro H
    rcases (bor_iff _ _).mp H with H1 | H2
    · obtain ⟨H01, Hd2⟩ := (band_iff _ _).mp H1
      have hd2 := (isDigitChar_iff h2).mp Hd2
      rcases (bor_iff _ _).mp H01 with h0 | h0 <;>
        · have := beq_iff_eq.mp h0
          subst this
          refine ⟨by decide, Hd2, ?_⟩
          have e0 : ('0').toNat = 48 := by decide
          have e1 : ('1').toNat = 49 := by decide
          omega
    · obtain ⟨H2a, H3⟩ := (band_iff _ _).mp H2
      obtain ⟨H2', Hd2⟩ := (band_iff _ _).mp H2a
      have hd2 := (isDigitChar_iff h2).mp Hd2
      have := beq_iff_eq.mp H2'
      subst this
      have h3 := of_decide_eq_true H3
      refine ⟨by decide, Hd2, ?_⟩
      have e2 : ('2').toNat = 50 := by decide
      omega
  · rintro ⟨Hd1, Hd2, Hle⟩
    have hd1 := (isDigitChar_iff h1).mp Hd1
    have hd2 := (isDigitChar_iff h2).mp Hd2
    apply (bor_iff _ _).mpr
    by_cases hv : h1.toNat ≤ 49
    · left
      apply (band_iff _ _).mpr
      refine ⟨(bor_iff _ _).mpr ?_, Hd2⟩
      rcases Nat.eq_or_lt_of_le hv with he | hlt
      · right
        refine beq_iff_eq.mpr (char_eq_of_toNat_eq ?_)
        have e1 : ('1').toNat = 49 := by decide
        omega
      · left
        refine beq_iff_eq.mpr (char_eq_of_toNat_eq ?_)
        have e0 : ('0').toNat = 48 := by decide
        omega
    · right
      have h150 : h1.toNat = 50 := by omega
      apply (band_iff _ _).mpr
      refine ⟨(band_iff _ _).mpr ⟨?_, Hd2⟩, ?_⟩
      · refine beq_iff_eq.mpr (char_eq_of_toNat_eq ?_)
        have e2 : ('2').toNat = 50 := by decide
        omega
      · exact decide_eq_true (by omega)

/-- The regex minute group `[0-5][0-9]` accepts exactly the two-digit values
00–59. -/
theorem minuteGroup_iff (m1 m2 : Char) :
    ((isDigitChar m1 && decide (digitVal m1 ≤ 5)) && isDigitChar m2) = true ↔
    isDigitChar m1 = true ∧ isDigitChar m2 = true ∧
      10 * digitVal m1 + digitVal m2 ≤ 59 := by
  unfold digitVal
  constructor
  · intro H
    obtain ⟨H1, Hd2⟩ := (band_iff _ _).mp H
    obtain ⟨Hd1, H5⟩ := (band_iff _ _).mp H1
    have hd1 := (isDigitChar_iff m1).mp Hd1
    have hd2 := (isDigitChar_iff m2).mp Hd2
    have h5 := of_decide_eq_true H5
    exact ⟨Hd1, Hd2, by omega⟩
  · rintro ⟨Hd1, Hd2, Hle⟩
    have hd1 := (isDigitChar_iff m1).mp Hd1
    have hd2 := (isDigitChar_iff m2).mp Hd2
    apply (band_iff _ _).mpr
    exact ⟨(band_iff _ _).mpr ⟨Hd1, decide_eq_true (by omega)⟩, Hd2⟩

theorem C8_amended (l : List Char) :
    isValidTime l = true ↔ isClockTimeLoose l = true := by
  rcases l with _ | ⟨a, _ | ⟨b, _ | ⟨c, _ | ⟨d, _ | ⟨e, _ | ⟨f, r⟩⟩⟩⟩⟩⟩
  · simp [isValidTime, isClockTimeLoose]
  · simp [isValidTime, isClockTimeLoose]
  · simp [isValidTime, isClockTimeLoose]
  · simp [isValidTime, isClockTimeLoose]
  · -- length 4: H:MM
    simp only [isValidTime, isClockTimeLoose]
    constructor
    · intro H
      obtain ⟨⟨⟨Hc, Hh⟩, Hm1⟩, Hm2⟩ := by simpa only [band_iff] using H
      obtain ⟨Hd1, Hd2, Hle⟩ := (minuteGroup_iff c d).mp
        ((band_iff _ _).mpr ⟨(band_iff _ _).mpr Hm1, Hm2⟩)
      simp only [band_iff, decide_eq_true_eq]
      exact ⟨⟨⟨⟨Hc, Hh⟩, Hd1⟩, Hd2⟩, Hle⟩
    · intro H
      obtain ⟨⟨⟨⟨Hc, Hh⟩, Hd1⟩, Hd2⟩, Hle⟩ := by
        simpa only [band_iff, decide_eq_true_eq] using H
      have Hm := (minuteGroup_iff c d).mpr ⟨Hd1, Hd2, Hle⟩
      obtain ⟨Hm1, Hm2⟩ := (band_iff _ _).mp Hm
      simp only [band_iff]
      exact ⟨⟨⟨Hc, Hh⟩, (band_iff _ _).mp Hm1⟩, Hm2⟩
  · -- length 5: HH:MM
    simp only [isValidTime, isClockTimeLoose]
    constructor
    · intro H
      obtain ⟨⟨⟨Hc, Hh⟩, Hm1⟩, Hm2⟩ := by simpa only [band_iff] using H
      obtain ⟨Hh1, Hh2, Hhle⟩ := (hourGroup_iff a b).mp Hh
      obtain ⟨Hd1, Hd2, Hmle⟩ := (minuteGroup_iff d e).mp
        ((band_iff _ _).mpr ⟨(band_iff _ _).mpr Hm1, Hm2⟩)
      simp only [band_iff, decide_eq_true_eq]
      exact ⟨⟨⟨⟨⟨⟨Hc, Hh1⟩, Hh2⟩, Hd1⟩, Hd2⟩, Hhle⟩, Hmle⟩
    · intro H
      obtain ⟨⟨⟨⟨⟨⟨Hc, Hh1⟩, Hh2⟩, Hd1⟩, Hd2⟩, Hhle⟩, Hmle⟩ := by
        simpa only [band_iff, decide_eq_true_eq] using H
      have Hh := (hourGroup_iff a b).mpr ⟨Hh1, Hh2, Hhle⟩
      have Hm := (minuteGroup_iff d e).mpr ⟨Hd1, Hd2, Hmle⟩
      obtain ⟨Hm1, Hm2⟩ := (band_iff _ _).mp Hm
      simp only [band_iff]
      exact ⟨⟨⟨Hc, Hh⟩, (band_iff _ _).mp Hm1⟩, Hm2⟩
  · simp [isValidTime, isClockTimeLoose]

/-! ## Claim C6 -/

/-- C6: the future-date check compares the UTC midnight of the submitted
date with the local end of today.  In a west-of-UTC zone (here Brazil,
`getTimezoneOffset() = 180`) a date strictly after the local calendar day
can pass: at `now = 1700000000000` (2023-11-14 19:13 local, UTC−3) the
submission dated 2023-11-15 is strictly in the future, yet the check lets it
through and the insert is issued. -/
theorem C6_futureDate_bug :
    dateStrictlyAfterLocalToday 180 1700000000000 "2023-11-15".data = true ∧
    futureRejectCheck 180 1700000000000 "2023-11-15".data = false ∧
    isOkE (handleSubmit 180 1700000000000 "u" "2023-11-15" "08:00" "17:00"
      false (calculateOvertimeDialog "08:00" "17:00" false)) = true := by
  refine ⟨by decide, by decide, by decide⟩

/-! ## Claim C10 -/

/-- C10: applying the update of an accepted edit to a stored row changes
exactly the seven transmitted columns (plus the trigger-maintained
`updated_at`); `id`, `user_id`, `hourly_rate` and `created_at` are
untouched, so the hourly-rate snapshot survives every edit. -/
theorem C10_frame (row : OvertimeRow) (d s e : String) (lunch : Bool)
    (p : UpdatePayload) (trigNow : ℤ)
    (h : handleEdit d s e lunch = .ok p) :
    (applyUpdate row p trigNow).id = row.id ∧
    (applyUpdate row p trigNow).user_id = row.user_id ∧
    (applyUpdate row p trigNow).hourly_rate = row.hourly_rate ∧
    (applyUpdate row p trigNow).created_at = row.created_at ∧
    (applyUpdate row p trigNow).date = p.date ∧
    (applyUpdate row p trigNow).start_time = p.start_time ∧
    (applyUpdate row p trigNow).end_time = p.end_time ∧
    (applyUpdate row p trigNow).total_hours = p.total_hours ∧
    (applyUpdate row p trigNow).lunch_discount = p.lunch_discount ∧
    (applyUpdate row p trigNow).net_hours = p.net_hours ∧
    (applyUpdate row p trigNow).total_value = p.total_value :=
  ⟨rfl, rfl, rfl, rfl, rfl, rfl, rfl, rfl, rfl, rfl, rfl⟩

/-- A concrete stored row used by witnesses. -/
def sampleRow : OvertimeRow :=
  { id := "r1"
    user_id := "u1"
    date := "2024-01-01"
    start_time := "09:00"
    end_time := "17:00"
    total_hours := some 8
    lunch_discount := false
    net_hours := some 8
    hourly_rate := mkRat 1557 100
    total_value := some (mkRat 12456 100)
    created_at := 1704067200000
    updated_at := 1704067200000 }

/-- The payload of a sample accepted edit. -/
def samplePayload : UpdatePayload :=
  updateRowOf "2024-01-10" "08:00" "10:00" false
    ((calculateOvertimeEdit "08:00" "10:00" false).getD ⟨none, false, none, none⟩)

theorem C10_witness :
    handleEdit "2024-01-10" "08:00" "10:00" false = .ok samplePayload ∧
    ((applyUpdate sampleRow samplePayload 1705276800000).id = sampleRow.id ∧
    (applyUpdate sampleRow samplePayload 1705276800000).user_id = sampleRow.user_id ∧
    (applyUpdate sampleRow samplePayload 1705276800000).hourly_rate = sampleRow.hourly_rate ∧
    (applyUpdate sampleRow samplePayload 1705276800000).created_at = sampleRow.created_at ∧
    (applyUpdate sampleRow samplePayload 1705276800000).date = samplePayload.date ∧
    (applyUpdate sampleRow samplePayload 1705276800000).start_time = samplePayload.start_time ∧
    (applyUpdate sampleRow samplePayload 1705276800000).end_time = samplePayload.end_time ∧
    (applyUpdate sampleRow samplePayload 1705276800000).total_hours = samplePayload.total_hours ∧
    (applyUpdate sampleRow samplePayload 1705276800000).lunch_discount = samplePayload.lunch_discount ∧
    (applyUpdate sampleRow samplePayload 1705276800000).net_hours = samplePayload.net_hours ∧
    (applyUpdate sampleRow samplePayload 1705276800000).total_value = samplePayload.total_value) :=
  ⟨by decide, C10_frame sampleRow "2024-01-10" "08:00" "10:00" false
    samplePayload 1705276800000 (by decide)⟩

/-! ## Claim C4 -/

/-- C4 counterexample: the edit path accepts a record whose start time is
after its end time (10:00–09:00), while the creation path rejects the same
field values as an invalid time range — so the edit path does not apply the
same checks as creation. -/
theorem C4_counterexample :
    isOkE (handleEdit "2024-01-10" "10:00" "09:00" false) = true ∧
    handleSubmit 0 1705276800000 "u" "2024-01-10" "10:00" "09:00" false
      (calculateOvertimeDialog "10:00" "09:00" false) =
      .error .invalidTimeRange := by
  refine ⟨by decide, by decide⟩

theorem isValidTime_ne_nil {l : List Char} (h : isValidTime l = true) :
    l ≠ [] := by
  intro he
  subst he
  simp [isValidTime] at h

theorem mkString_eq_empty_iff (l : List Char) : String.mk l = "" ↔ l = [] := by
  constructor
  · intro h
    have := congrArg String.data h
    simpa using this
  · rintro rfl
    rfl

/-- C4 (amended): the edit path re-validates only field presence, the date
format and the time formats (and recomputes the calculation, which succeeds
whenever the time formats are valid); it accepts the edit exactly when those
checks pass — the future-date, time-range and positive-net-hours conditions
of the creation path are not re-checked. -/
theorem C4_amended (d s e : String) (lunch : Bool) :
    isOkE (handleEdit d s e lunch) = true ↔
      (d ≠ "" ∧ s ≠ "" ∧ e ≠ "" ∧
        isValidDate (sanitizeInput d).data = true ∧
        isValidTime (sanitizeInput s).data = true ∧
        isValidTime (sanitizeInput e).data = true) := by
  unfold handleEdit
  by_cases h1 : d = "" ∨ s = "" ∨ e = ""
  · rw [if_pos h1]
    simp only [isOkE]
    constructor
    · intro h
      exact absurd h (by simp)
    · rintro ⟨hd, hs, he, -⟩
      rcases h1 with h | h | h <;> simp_all
  · rw [if_neg h1]
    push_neg at h1
    obtain ⟨hd, hs, he⟩ := h1
    cases h2 : isValidDate (sanitizeInput d).data
    · simp [isOkE, h2, hd, hs, he]
    · cases h3 : isValidTime (sanitizeInput s).data
      · simp [isOkE, h2, h3, hd, hs, he]
      · cases h4 : isValidTime (sanitizeInput e).data
        · simp [isOkE, h2, h3, h4, hd, hs, he]
        · have hcalc : ∃ c, calculateOvertimeEdit (sanitizeInput s)
              (sanitizeInput e) lunch = some c := by
            unfold calculateOvertimeEdit
            rw [if_neg]
            · exact ⟨_, rfl⟩
            · push_neg
              constructor
              · intro hemp
                exact isValidTime_ne_nil h3 (by
                  have := congrArg String.data hemp
                  simpa using this)
              · intro hemp
                exact isValidTime_ne_nil h4 (by
                  have := congrArg String.data hemp
                  simpa using this)
          obtain ⟨c, hc⟩ := hcalc
          simp [isOkE, h2, h3, h4, hd, hs, he, hc]

/-! ## Claim C2 -/

theorem isoTime_of_isHHMMClock {l : List Char} (h : isHHMMClock l = true) :
    isoTimeMinutes l = some (clockMinutesHHMM l) := by
  rcases l with _ | ⟨a, _ | ⟨b, _ | ⟨c, _ | ⟨d, _ | ⟨e, _ | ⟨f, r⟩⟩⟩⟩⟩⟩
  · exact absurd h (by simp [isHHMMClock])
  · exact absurd h (by simp [isHHMMClock])
  · exact absurd h (by simp [isHHMMClock])
  · exact absurd h (by simp [isHHMMClock])
  · exact absurd h (by simp [isHHMMClock])
  · simp only [isHHMMClock] at h
    simp only [isoTimeMinutes, clockMinutesHHMM]
    rw [if_pos h]
  · exact absurd h (by simp [isHHMMClock])

/-- C2: when the date and both (sanitized) times pass the format checks,
the times are canonical two-digit `HH:MM` values, the date is not rejected
as future, and the start clock value is greater than or equal to the end
clock value, `handleSubmit` throws the invalid-time-range error — before any
insert, and without any overnight wraparound. -/
theorem C2_sameDayRange (off now : ℤ) (uid d s e : String) (lunch : Bool)
    (cr : CalcResult)
    (hd : d ≠ "") (hs : s ≠ "") (he : e ≠ "")
    (h1 : isValidDate (sanitizeInput d).data = true)
    (h2 : isValidTime (sanitizeInput s).data = true)
    (h3 : isValidTime (sanitizeInput e).data = true)
    (h4 : futureRejectCheck off now (sanitizeInput d).data = false)
    (h5 : isHHMMClock (sanitizeInput s).data = true)
    (h6 : isHHMMClock (sanitizeInput e).data = true)
    (h7 : clockMinutesHHMM (sanitizeInput e).data ≤
      clockMinutesHHMM (sanitizeInput s).data) :
    handleSubmit off now uid d s e lunch (some cr) =
      .error .invalidTimeRange := by
  have hng : ¬(d = "" ∨ s = "" ∨ e = "") := by tauto
  simp only [handleSubmit]
  simp [hng, h1, h2, h3, h4, isoTime_of_isHHMMClock h5,
    isoTime_of_isHHMMClock h6, jsDateGe, h7]

/-- C2 witness data: the overnight pair 23:00–01:00. -/
def calcAt2301 : CalcResult :=
  (calculateOvertimeDialog "23:00" "01:00" false).getD ⟨none, false, none, none⟩

theorem C2_witness :
    ("2023-11-10" : String) ≠ "" ∧
    isValidDate (sanitizeInput "2023-11-10").data = true ∧
    isValidTime (sanitizeInput "23:00").data = true ∧
    isValidTime (sanitizeInput "01:00").data = true ∧
    futureRejectCheck 0 1700000000000 (sanitizeInput "2023-11-10").data = false ∧
    clockMinutesHHMM (sanitizeInput "01:00").data ≤
      clockMinutesHHMM (sanitizeInput "23:00").data ∧
    handleSubmit 0 1700000000000 "u" "2023-11-10" "23:00" "01:00" false
      (some calcAt2301) = .error .invalidTimeRange ∧
    calcAt2301.totalHours = some 2 :=
  ⟨by decide, by decide, by decide, by decide, by decide, by decide,
    C2_sameDayRange 0 1700000000000 "u" "2023-11-10" "23:00" "01:00" false
      calcAt2301 (by decide) (by decide) (by decide) (by decide) (by decide)
      (by decide) (by decide) (by decide) (by decide) (by decide),
    by decide⟩

/-! ## Claim C3 -/

/-- The calculation state for the one-hour lunch shift 08:00–09:00. -/
def calcAt0809 : CalcResult :=
  (calculateOvertimeDialog "08:00" "09:00" true).getD ⟨none, false, none, none⟩

/-- C3 counterexample: for the lunch-discounted one-hour shift the
calculation has `netHours = 0`, yet `handleSubmit` raises no error — the
submission passes the whole frontend validation and the insert is issued
with `net_hours = 0` (it is the database CHECK constraint, not the
validator, that fails it). -/
theorem C3_counterexample :
    calcAt0809.netHours = some 0 ∧
    handleSubmit 0 1705276800000 "u" "2024-01-10" "08:00" "09:00" true
      (some calcAt0809) =
      .ok (insertRowOf "u" "2024-01-10" "08:00" "09:00" true calcAt0809) ∧
    dbNetHoursPositive
      (insertRowOf "u" "2024-01-10" "08:00" "09:00" true calcAt0809) = false := by
  refine ⟨by decide, by decide, by decide⟩

/-- C3 (amended): the frontend validator has no netHours check: a submission
whose calculation has `netHours ≤ 0` but which passes the other checks is
sent to the database unchanged, and the CHECK constraint
`overtime_records_net_hours_positive` rejects the row there, so it is never
persisted. -/
theorem C3_dbConstraintOnly (off now : ℤ) (uid d s e : String) (lunch : Bool)
    (cr : CalcResult) (q : ℚ)
    (hd : d ≠ "") (hs : s ≠ "") (he : e ≠ "")
    (h1 : isValidDate (sanitizeInput d).data = true)
    (h2 : isValidTime (sanitizeInput s).data = true)
    (h3 : isValidTime (sanitizeInput e).data = true)
    (h4 : futureRejectCheck off now (sanitizeInput d).data = false)
    (h5 : isHHMMClock (sanitizeInput s).data = true)
    (h6 : isHHMMClock (sanitizeInput e).data = true)
    (h7 : clockMinutesHHMM (sanitizeInput s).data <
      clockMinutesHHMM (sanitizeInput e).data)
    (hq : cr.netHours = some q) (hq0 : q ≤ 0) :
    handleSubmit off now uid d s e lunch (some cr) =
      .ok (insertRowOf uid (sanitizeInput d) (sanitizeInput s)
        (sanitizeInput e) lunch cr) ∧
    dbNetHoursPositive (insertRowOf uid (sanitizeInput d) (sanitizeInput s)
      (sanitizeInput e) lunch cr) = false := by
  constructor
  · have hng : ¬(d = "" ∨ s = "" ∨ e = "") := by tauto
    simp only [handleSubmit]
    simp [hng, h1, h2, h3, h4, isoTime_of_isHHMMClock h5,
      isoTime_of_isHHMMClock h6, jsDateGe, Nat.not_le.mpr h7]
  · simp only [dbNetHoursPositive, insertRowOf, hq]
    exact hq0

theorem C3_witness :
    calcAt0809.netHours = some 0 ∧ (0 : ℚ) ≤ 0 ∧
    (handleSubmit 0 1705276800000 "u" "2024-01-10" "08:00" "09:00" true
        (some calcAt0809) =
      .ok (insertRowOf "u" (sanitizeInput "2024-01-10")
        (sanitizeInput "08:00") (sanitizeInput "09:00") true calcAt0809) ∧
    dbNetHoursPositive (insertRowOf "u" (sanitizeInput "2024-01-10")
      (sanitizeInput "08:00") (sanitizeInput "09:00") true calcAt0809) =
        false) :=
  ⟨by decide, le_refl 0,
    C3_dbConstraintOnly 0 1705276800000 "u" "2024-01-10" "08:00" "09:00"
      true calcAt0809 0 (by decide) (by decide) (by decide) (by decide)
      (by decide) (by decide) (by decide) (by decide) (by decide) (by decide)
      (by decide) (le_refl 0)⟩

/-! ## Claim C9 -/

/-- The claim's fixed-window answer pattern: of `n` calls inside one window,
the `i`-th is allowed exactly when `i < maxAttempts`. -/
def fixedWindowPattern (maxAttempts n : ℕ) : List Bool :=
  (List.range n).map (fun i => decide (i < maxAttempts))

theorem decide_lt_congr {a b m : ℕ} (h : a = b) :
    decide (a < m) = decide (b < m) := by rw [h]

theorem decide_lt_false_both {a b m : ℕ} (ha : ¬a < m) (hb : ¬b < m) :
    decide (a < m) = decide (b < m) := by
  rw [decide_eq_false ha, decide_eq_false hb]

theorem lookup_rlSet_self (st : RLState) (k : String) (v : RLEntry) :
    (rlSet st k v).lookup k = some v := by
  simp [rlSet, List.lookup]

theorem rlReset_lookup (st : RLState) (k : String) :
    (rlReset st k).lookup k = none := by
  induction st with
  | nil => rfl
  | cons p t ih =>
      by_cases h : p.1 == k
      · simpa [rlReset, List.filter, h] using ih
      · have hne : p.1 ≠ k := by
          intro he
          exact h (by simp [he])
        have h' : (k == p.1) = false :=
          beq_eq_false_iff_ne.mpr (fun he => hne he.symm)
        simp only [rlReset, List.filter, h] at ih ⊢
        simp only [Bool.not_false, List.lookup, h']
        exact ih

theorem rlRun_within (maxA : ℕ) (W : ℤ) (k : String) :
    ∀ (rest : List ℤ) (st : RLState) (c : ℕ) (R : ℤ),
      st.lookup k = some ⟨c, R⟩ → c ≤ maxA → (∀ t ∈ rest, t ≤ R) →
      (rlRun maxA W st k rest).1 =
        (List.range rest.length).map (fun i => decide (c + i < maxA)) ∧
      (rlRun maxA W st k rest).2.lookup k =
        some ⟨min (c + rest.length) maxA, R⟩ := by
  intro rest
  induction rest with
  | nil =>
      intro st c R hl hc _
      refine ⟨rfl, ?_⟩
      simpa [rlRun, Nat.min_eq_left hc] using hl
  | cons thead ttail ih =>
      intro st c R hl hc hwin
      have hnotlt : ¬(R < thead) := not_lt.mpr (hwin thead (by simp))
      by_cases hfull : maxA ≤ c
      · have hstep : rlIsAllowed maxA W st k thead = (false, st) := by
          simp [rlIsAllowed, hl, hnotlt, hfull]
        obtain ⟨ho, hs⟩ := ih st c R hl hc (fun t' ht' => hwin t' (by simp [ht']))
        constructor
        · simp only [rlRun, hstep, ho, List.length_cons,
            List.range_succ_eq_map, List.map_cons, List.map_map]
          congr 1
          · exact (decide_eq_false (by omega : ¬(c + 0 < maxA))).symm
          · apply List.map_congr_left
            intro i _
            simp only [Function.comp]
            exact decide_lt_false_both (by omega) (by omega)
        · simp only [rlRun, hstep, hs]
          congr 2
          omega
      · push_neg at hfull
        have hstep : rlIsAllowed maxA W st k thead =
            (true, rlSet st k ⟨c + 1, R⟩) := by
          simp [rlIsAllowed, hl, hnotlt, Nat.not_le.mpr hfull]
        obtain ⟨ho, hs⟩ := ih (rlSet st k ⟨c + 1, R⟩) (c + 1) R
          (lookup_rlSet_self _ _ _) hfull
          (fun t' ht' => hwin t' (by simp [ht']))
        constructor
        · simp only [rlRun, hstep, ho, List.length_cons,
            List.range_succ_eq_map, List.map_cons, List.map_map]
          congr 1
          · exact (decide_eq_true (by omega : c + 0 < maxA)).symm
          · apply List.map_congr_left
            intro i _
            simp only [Function.comp]
            exact decide_lt_congr (by omega)
        · simp only [rlRun, hstep, hs]
          have he : c + 1 + ttail.length = c + (thead :: ttail).length := by
            simp only [List.length_cons]
            omega
          rw [he]

/-- C9: the rate limiter's fixed-window behaviour.  For a fresh key and
calls at non-decreasing times `t0 :: rest` all within `t0 + windowMs`: the
first call is allowed and opens a window ending `windowMs` after it, the
first `maxAttempts` calls (and no more) are allowed, and the stored window
end stays `t0 + windowMs`.  A call after a key's stored window end is
allowed again and opens a fresh window; `reset` deletes the key, so the next
call is allowed regardless of prior attempts. -/
theorem C9_rateLimiter (maxA : ℕ) (W : ℤ) (k : String) (t0 : ℤ)
    (rest : List ℤ) (st st' : RLState) (a : RLEntry) (t t' : ℤ)
    (hpos : 1 ≤ maxA)
    (hchain : List.Chain' (fun x y => x ≤ y) (t0 :: rest))
    (hwin : ∀ u ∈ rest, t0 ≤ u ∧ u ≤ t0 + W)
    (hst : st.lookup k = some a) (hexp : a.resetTime < t) :
    (rlRun maxA W [] k (t0 :: rest)).1 =
      fixedWindowPattern maxA (rest.length + 1) ∧
    (rlRun maxA W [] k (t0 :: rest)).2.lookup k =
      some ⟨min (rest.length + 1) maxA, t0 + W⟩ ∧
    rlIsAllowed maxA W st k t = (true, rlSet st k ⟨1, t + W⟩) ∧
    (rlIsAllowed maxA W (rlReset st' k) k t').1 = true := by
  have hfirst : rlIsAllowed maxA W ([] : RLState) k t0 =
      (true, rlSet [] k ⟨1, t0 + W⟩) := by
    simp [rlIsAllowed, List.lookup]
  obtain ⟨ho, hs⟩ := rlRun_within maxA W k rest (rlSet [] k ⟨1, t0 + W⟩) 1
    (t0 + W) (lookup_rlSet_self _ _ _) hpos (fun u hu => (hwin u hu).2)
  refine ⟨?_, ?_, ?_, ?_⟩
  · simp only [rlRun, hfirst, ho, fixedWindowPattern, List.length_cons,
      List.range_succ_eq_map, List.map_cons, List.map_map]
    congr 1
    · exact (decide_eq_true (by omega : 0 < maxA)).symm
    · apply List.map_congr_left
      intro i _
      simp only [Function.comp]
      exact decide_lt_congr (by omega)
  · simp only [rlRun, hfirst, hs]
    congr 2
    omega
  · simp [rlIsAllowed, hst, hexp]
  · simp [rlIsAllowed, rlReset_lookup]

/-- A prior rate-limiter state used by the C9 witness: the key has exhausted
its attempts in a window that ended at time 100. -/
def rlStExpired : RLState := [("user@jb.com", ⟨5, 100⟩)]

theorem C9_witness :
    (1 : ℕ) ≤ 5 ∧
    rlStExpired.lookup "user@jb.com" = some ⟨5, 100⟩ ∧
    (100 : ℤ) < 1000000 ∧
    ((rlRun 5 900000 [] "user@jb.com"
        (0 :: [1000, 2000, 3000, 4000, 5000, 6000])).1 =
      fixedWindowPattern 5 ([1000, 2000, 3000, 4000, 5000, 6000].length + 1) ∧
    (rlRun 5 900000 [] "user@jb.com"
        (0 :: [1000, 2000, 3000, 4000, 5000, 6000])).2.lookup "user@jb.com" =
      some ⟨min ([1000, 2000, 3000, 4000, 5000, 6000].length + 1) 5,
        0 + 900000⟩ ∧
    rlIsAllowed 5 900000 rlStExpired "user@jb.com" 1000000 =
      (true, rlSet rlStExpired "user@jb.com" ⟨1, 1000000 + 900000⟩) ∧
    (rlIsAllowed 5 900000 (rlReset rlStExpired "user@jb.com") "user@jb.com"
      42).1 = true) :=
  ⟨by decide, by decide, by decide,
    C9_rateLimiter 5 900000 "user@jb.com" 0
      [1000, 2000, 3000, 4000, 5000, 6000] rlStExpired rlStExpired ⟨5, 100⟩
      1000000 42 (by decide) (by simp [List.chain'_cons]) (by decide)
      (by decide) (by decide)⟩

/-! ## Claim C1: bridging the string-level calculator to the minute level -/

theorem sixty_eq : (60 : ℚ) = qOfInt 60 := by decide
theorem hundred_eq : (100 : ℚ) = qOfInt 100 := by decide
theorem quattuor_eq : (1440 : ℚ) = qOfInt 1440 := by decide
theorem one_eq : (1 : ℚ) = qOfInt 1 := by decide
theorem zero_eq : (0 : ℚ) = qOfInt 0 := by decide

theorem qAdd_ofInt (x y : ℤ) : qAdd (qOfInt x) (qOfInt y) = qOfInt (x + y) := by
  rw [qAdd_eq, qOfInt_eq, qOfInt_eq, qOfInt_eq]
  push_cast
  ring

theorem qSub_ofInt (x y : ℤ) : qSub (qOfInt x) (qOfInt y) = qOfInt (x - y) := by
  rw [qSub_eq, qOfInt_eq, qOfInt_eq, qOfInt_eq]
  push_cast
  ring

theorem qMul_ofInt (x y : ℤ) : qMul (qOfInt x) (qOfInt y) = qOfInt (x * y) := by
  rw [qMul_eq, qOfInt_eq, qOfInt_eq, qOfInt_eq]
  push_cast
  ring

theorem qLtB_ofInt (x y : ℤ) : qLtB (qOfInt x) (qOfInt y) = decide (x < y) := by
  by_cases h : x < y
  · have hq : qOfInt x < qOfInt y := by
      rw [qOfInt_eq, qOfInt_eq]
      exact_mod_cast h
    rw [decide_eq_true h]
    exact hq
  · have hq : ¬(qOfInt x < qOfInt y) := by
      rw [qOfInt_eq, qOfInt_eq]
      exact_mod_cast h
    rw [decide_eq_false h]
    cases hb : qLtB (qOfInt x) (qOfInt y)
    · rfl
    · exact absurd hb hq

theorem isDigitChar_ne_colon {c : Char} (h : isDigitChar c = true) :
    (c == ':') = false := by
  cases hb : c == ':'
  · rfl
  · have : c = ':' := beq_iff_eq.mp hb
    subst this
    exact absurd h (by decide)

theorem isDigitChar_not_ws {c : Char} (h : isDigitChar c = true) :
    isJsWhitespace c = false := by
  obtain ⟨h1, h2⟩ := (isDigitChar_iff c).mp h
  unfold isJsWhitespace
  simp only [Bool.or_eq_false_iff, beq_eq_false_iff_ne, ne_eq,
    Bool.and_eq_false_iff, decide_eq_false_iff_not]
  omega

theorem digitVal_le_nine {c : Char} (h : isDigitChar c = true) :
    digitVal c ≤ 9 := by
  obtain ⟨h1, h2⟩ := (isDigitChar_iff c).mp h
  unfold digitVal
  omega

theorem splitColon_hhmm {a b m1 m2 : Char} (da : isDigitChar a = true)
    (db : isDigitChar b = true) (dm1 : isDigitChar m1 = true)
    (dm2 : isDigitChar m2 = true) :
    jsSplitColon [a, b, ':', m1, m2] = [[a, b], [m1, m2]] := by
  unfold jsSplitColon
  simp [jsSplitColonAux, isDigitChar_ne_colon da, isDigitChar_ne_colon db,
    isDigitChar_ne_colon dm1, isDigitChar_ne_colon dm2]

theorem jsNumber_two_digits {a b : Char} (da : isDigitChar a = true)
    (db : isDigitChar b = true) :
    jsNumber [a, b] = some (qOfInt ((10 * digitVal a + digitVal b : ℕ) : ℤ)) := by
  unfold jsNumber jsTrim
  rw [show List.dropWhile isJsWhitespace [a, b] = [a, b] from by
    simp [List.dropWhile, isDigitChar_not_ws da]]
  rw [show ([a, b].reverse : List Char) = [b, a] from by simp]
  rw [show List.dropWhile isJsWhitespace [b, a] = [b, a] from by
    simp [List.dropWhile, isDigitChar_not_ws db]]
  rw [show ([b, a].reverse : List Char) = [a, b] from by simp]
  rw [if_neg (by simp)]
  rw [if_pos (by simp [List.all_cons, da, db])]
  rw [show List.foldl (fun acc c => 10 * acc + digitVal c) 0 [a, b] =
      10 * digitVal a + digitVal b from by
    simp [List.foldl]]
  rw [flRound_int_small _ (by omega) (by
    have := digitVal_le_nine da
    have := digitVal_le_nine db
    omega)]

theorem parseTimeParts_hhmm {a b m1 m2 : Char} (da : isDigitChar a = true)
    (db : isDigitChar b = true) (dm1 : isDigitChar m1 = true)
    (dm2 : isDigitChar m2 = true) :
    parseTimeParts [a, b, ':', m1, m2] =
      (some (qOfInt ((10 * digitVal a + digitVal b : ℕ) : ℤ)),
       some (qOfInt ((10 * digitVal m1 + digitVal m2 : ℕ) : ℤ))) := by
  unfold parseTimeParts
  rw [splitColon_hhmm da db dm1 dm2]
  simp only [List.map_cons, List.map_nil]
  rw [jsNumber_two_digits da db, jsNumber_two_digits dm1 dm2]

theorem isHHMMClock_shape {l : List Char} (h : isHHMMClock l = true) :
    ∃ h1 h2 m1 m2, l = [h1, h2, ':', m1, m2] ∧
      isDigitChar h1 = true ∧ isDigitChar h2 = true ∧
      isDigitChar m1 = true ∧ isDigitChar m2 = true ∧
      10 * digitVal h1 + digitVal h2 ≤ 23 ∧
      10 * digitVal m1 + digitVal m2 ≤ 59 := by
  rcases l with _ | ⟨a, _ | ⟨b, _ | ⟨c, _ | ⟨d, _ | ⟨e, _ | ⟨f, r⟩⟩⟩⟩⟩⟩
  · exact absurd h (by simp [isHHMMClock])
  · exact absurd h (by simp [isHHMMClock])
  · exact absurd h (by simp [isHHMMClock])
  · exact absurd h (by simp [isHHMMClock])
  · exact absurd h (by simp [isHHMMClock])
  · simp only [isHHMMClock] at h
    obtain ⟨⟨⟨⟨⟨⟨hc, hd1⟩, hd2⟩, hd3⟩, hd4⟩, hle1⟩, hle2⟩ := by
      simpa only [band_iff, decide_eq_true_eq] using h
    have : c = ':' := beq_iff_eq.mp hc
    subst this
    exact ⟨a, b, d, e, rfl, hd1, hd2, hd3, hd4, hle1, hle2⟩
  · exact absurd h (by simp [isHHMMClock])

theorem calcDialog_parsed (s e : String) (lunch : Bool) (sh sm eh em : ℕ)
    (hps : parseTimeParts s.data = (some (qOfInt sh), some (qOfInt sm)))
    (hpe : parseTimeParts e.data = (some (qOfInt eh), some (qOfInt em)))
    (hs0 : s ≠ "") (he0 : e ≠ "")
    (hbs : sh ≤ 23) (hbs2 : sm ≤ 59) (hbe : eh ≤ 23) (hbe2 : em ≤ 59) :
    calculateOvertimeDialog s e lunch =
      some (calcOfTotalMinutes
        ((wrapDelta (sh * 60 + sm) (eh * 60 + em) : ℕ) : ℤ) lunch) := by
  have e60s : qMul (qOfInt (sh : ℤ)) (60 : ℚ) = qOfInt ((sh : ℤ) * 60) := by
    rw [sixty_eq, qMul_ofInt]
  have e60e : qMul (qOfInt (eh : ℤ)) (60 : ℚ) = qOfInt ((eh : ℤ) * 60) := by
    rw [sixty_eq, qMul_ofInt]
  have f1 : flRound (qOfInt ((sh : ℤ) * 60)) = qOfInt ((sh : ℤ) * 60) :=
    flRound_int_small _ (by omega) (by omega)
  have f2 : flRound (qOfInt ((eh : ℤ) * 60)) = qOfInt ((eh : ℤ) * 60) :=
    flRound_int_small _ (by omega) (by omega)
  have a1 : qAdd (qOfInt ((sh : ℤ) * 60)) (qOfInt (sm : ℤ)) =
      qOfInt ((sh : ℤ) * 60 + sm) := qAdd_ofInt _ _
  have a2 : qAdd (qOfInt ((eh : ℤ) * 60)) (qOfInt (em : ℤ)) =
      qOfInt ((eh : ℤ) * 60 + em) := qAdd_ofInt _ _
  have f3 : flRound (qOfInt ((sh : ℤ) * 60 + sm)) = qOfInt ((sh : ℤ) * 60 + sm) :=
    flRound_int_small _ (by omega) (by omega)
  have f4 : flRound (qOfInt ((eh : ℤ) * 60 + em)) = qOfInt ((eh : ℤ) * 60 + em) :=
    flRound_int_small _ (by omega) (by omega)
  have s1 : qSub (qOfInt ((eh : ℤ) * 60 + em)) (qOfInt ((sh : ℤ) * 60 + sm)) =
      qOfInt (((eh : ℤ) * 60 + em) - ((sh : ℤ) * 60 + sm)) := qSub_ofInt _ _
  have f5 : flRound (qOfInt (((eh : ℤ) * 60 + em) - ((sh : ℤ) * 60 + sm))) =
      qOfInt (((eh : ℤ) * 60 + em) - ((sh : ℤ) * 60 + sm)) :=
    flRound_int_small _ (by omega) (by omega)
  have lt1 : qLtB (qOfInt (((eh : ℤ) * 60 + em) - ((sh : ℤ) * 60 + sm)))
      (0 : ℚ) = decide ((((eh : ℤ) * 60 + em) - ((sh : ℤ) * 60 + sm)) < 0) := by
    rw [zero_eq, qLtB_ofInt]
  simp only [calculateOvertimeDialog, hps, hpe, jsMul, jsAdd, jsSub, jsLt,
    if_neg (show ¬(s = "" ∨ e = "") from by tauto), e60s, e60e, f1, f2,
    a1, a2, f3, f4, s1, f5, lt1]
  by_cases hlt : (((eh : ℤ) * 60 + em) - ((sh : ℤ) * 60 + sm)) < 0
  · have hd : ((wrapDelta (sh * 60 + sm) (eh * 60 + em) : ℕ) : ℤ) =
        (((eh : ℤ) * 60 + em) - ((sh : ℤ) * 60 + sm)) + 1440 := by
      unfold wrapDelta
      rw [if_pos (by omega)]
      push_cast
      omega
    have ad : qAdd (qOfInt (((eh : ℤ) * 60 + em) - ((sh : ℤ) * 60 + sm)))
        (1440 : ℚ) =
        qOfInt ((((eh : ℤ) * 60 + em) - ((sh : ℤ) * 60 + sm)) + 1440) := by
      rw [quattuor_eq, qAdd_ofInt]
    have f6 : flRound (qOfInt ((((eh : ℤ) * 60 + em) - ((sh : ℤ) * 60 + sm)) +
        1440)) =
        qOfInt ((((eh : ℤ) * 60 + em) - ((sh : ℤ) * 60 + sm)) + 1440) :=
      flRound_int_small _ (by omega) (by omega)
    simp only [decide_eq_true hlt, if_true, jsAdd, ad, f6, hd]
    simp only [calcOfTotalMinutes, qForce_eq, round2, cents100, round2cents,
      jsDiv, jsMathRound]
    cases lunch <;> rfl
  · have hd : ((wrapDelta (sh * 60 + sm) (eh * 60 + em) : ℕ) : ℤ) =
        (((eh : ℤ) * 60 + em) - ((sh : ℤ) * 60 + sm)) := by
      unfold wrapDelta
      rw [if_neg (by omega)]
      push_cast
      omega
    simp only [decide_eq_false hlt, Bool.false_eq_true, if_false, hd]
    simp only [calcOfTotalMinutes, qForce_eq, round2, cents100, round2cents,
      jsDiv, jsMathRound]
    cases lunch <;> rfl

/-- The claim's `deltaMinutes` as a function of the two time strings. -/
def claimDelta (s e : String) : ℕ :=
  wrapDelta (clockMinutesHHMM s.data) (clockMinutesHHMM e.data)

theorem clockMinutes_lt {l : List Char} (h : isHHMMClock l = true) :
    clockMinutesHHMM l < 1440 := by
  obtain ⟨h1, h2, m1, m2, hl, d1, d2, d3, d4, hle1, hle2⟩ := isHHMMClock_shape h
  subst hl
  simp only [clockMinutesHHMM]
  omega

theorem wrapDelta_lt {a b : ℕ} (ha : a < 1440) (hb : b < 1440) :
    wrapDelta a b < 1440 := by
  unfold wrapDelta
  split <;> omega

theorem calcDialog_hhmm (s e : String) (lunch : Bool)
    (hs : isHHMMClock s.data = true) (he : isHHMMClock e.data = true) :
    calculateOvertimeDialog s e lunch =
      some (calcOfTotalMinutes ((claimDelta s e : ℕ) : ℤ) lunch) := by
  obtain ⟨a, b, m1, m2, hsl, da, db, dm1, dm2, hA, hB⟩ := isHHMMClock_shape hs
  obtain ⟨a2, b2, n1, n2, hel, da2, db2, dn1, dn2, hA2, hB2⟩ :=
    isHHMMClock_shape he
  have hs0 : s ≠ "" := by
    intro h0
    have := hsl
    rw [h0] at this
    simp at this
  have he0 : e ≠ "" := by
    intro h0
    have := hel
    rw [h0] at this
    simp at this
  have hps : parseTimeParts s.data =
      (some (qOfInt ((10 * digitVal a + digitVal b : ℕ) : ℤ)),
       some (qOfInt ((10 * digitVal m1 + digitVal m2 : ℕ) : ℤ))) := by
    rw [hsl]
    exact parseTimeParts_hhmm da db dm1 dm2
  have hpe : parseTimeParts e.data =
      (some (qOfInt ((10 * digitVal a2 + digitVal b2 : ℕ) : ℤ)),
       some (qOfInt ((10 * digitVal n1 + digitVal n2 : ℕ) : ℤ))) := by
    rw [hel]
    exact parseTimeParts_hhmm da2 db2 dn1 dn2
  have hcs : clockMinutesHHMM s.data =
      (10 * digitVal a + digitVal b) * 60 + (10 * digitVal m1 + digitVal m2) := by
    rw [hsl]
    simp [clockMinutesHHMM]
  have hce : clockMinutesHHMM e.data =
      (10 * digitVal a2 + digitVal b2) * 60 + (10 * digitVal n1 + digitVal n2) := by
    rw [hel]
    simp [clockMinutesHHMM]
  unfold claimDelta
  rw [hcs, hce]
  exact calcDialog_parsed s e lunch _ _ _ _ hps hpe hs0 he0 hA
    (by have := digitVal_le_nine dm1; have := digitVal_le_nine dm2; omega)
    hA2
    (by have := digitVal_le_nine dn1; have := digitVal_le_nine dn2; omega)

/-- C1 counterexample: for the shift 08:00–10:30 without lunch the exact
value is `netHours · 15.57 · 100 = 3892.5`, whose round-half-up is 3893
cents; the code's double-precision product falls just below the tie and
`Math.round` returns 3892 cents (38.92, not 38.93). -/
theorem C1_counterexample :
    (calculateOvertimeDialog "08:00" "10:30" false).map CalcResult.totalValue =
      some (some (cents100 3892)) ∧
    roundHalfUp (claimedValueExact 150 false) = 3893 ∧
    cents100 3892 ≠ cents100 3893 := by
  refine ⟨by decide, by decide, by decide⟩

/-- C1 (amended): for well-formed `HH:MM` inputs the result is non-null;
`totalHours` and `netHours` carry exactly the claimed rounded cent values;
and `totalValue` carries the claimed `round(netHours·15.57·100)/100` except
that when `netHours·1557` is an exact half-integer the double-precision
product may round to the next cent down instead. -/
theorem C1_amended (s e : String) (lunch : Bool)
    (hs : isHHMMClock s.data = true) (he : isHHMMClock e.data = true) :
    (calculateOvertimeDialog s e lunch).isSome = true ∧
    (calculateOvertimeDialog s e lunch).map CalcResult.totalHours =
      some (some (cents100 (roundHalfUp
        (qMul (qDiv (qOfInt ((claimDelta s e : ℕ) : ℤ)) 60) 100)))) ∧
    (calculateOvertimeDialog s e lunch).map CalcResult.netHours =
      some (some (cents100 (roundHalfUp
        (qMul (netHoursExact (claimDelta s e) lunch) 100)))) ∧
    ((calculateOvertimeDialog s e lunch).map CalcResult.totalValue =
      some (some (cents100 (roundHalfUp
        (claimedValueExact (claimDelta s e) lunch)))) ∨
      ((qMul 2 (claimedValueExact (claimDelta s e) lunch)).den = 1 ∧
        (calculateOvertimeDialog s e lunch).map CalcResult.totalValue =
          some (some (cents100
            (-(roundHalfUp (qNeg (claimedValueExact (claimDelta s e) lunch)))))))) := by
  have hb := calcDialog_hhmm s e lunch hs he
  have hΔ : claimDelta s e < 1440 :=
    wrapDelta_lt (clockMinutes_lt hs) (clockMinutes_lt he)
  have hok := amendedOK_all (claimDelta s e) hΔ lunch
  simp only [amendedOK, qForce_eq, intForce_eq] at hok
  obtain ⟨hab, htv⟩ := (band_iff _ _).mp hok
  obtain ⟨hth, hnh⟩ := (band_iff _ _).mp hab
  rw [hb]
  simp only [Option.isSome_some, Option.map_some', calcOfTotalMinutes,
    qForce_eq, round2, true_and]
  refine ⟨?_, ?_, ?_⟩
  · rw [beq_iff_eq.mp hth]
  · rw [beq_iff_eq.mp hnh]
  · rcases (bor_iff _ _).mp htv with h | h
    · left
      rw [beq_iff_eq.mp h]
    · right
      obtain ⟨hden, hval⟩ := (band_iff _ _).mp h
      exact ⟨beq_iff_eq.mp hden, by rw [beq_iff_eq.mp hval]⟩

theorem C1_witness :
    isHHMMClock "08:00".data = true ∧ isHHMMClock "10:11".data = true ∧
    ((calculateOvertimeDialog "08:00" "10:11" false).isSome = true ∧
    (calculateOvertimeDialog "08:00" "10:11" false).map CalcResult.totalHours =
      some (some (cents100 (roundHalfUp
        (qMul (qDiv (qOfInt ((claimDelta "08:00" "10:11" : ℕ) : ℤ)) 60) 100)))) ∧
    (calculateOvertimeDialog "08:00" "10:11" false).map CalcResult.netHours =
      some (some (cents100 (roundHalfUp
        (qMul (netHoursExact (claimDelta "08:00" "10:11") false) 100)))) ∧
    ((calculateOvertimeDialog "08:00" "10:11" false).map CalcResult.totalValue =
      some (some (cents100 (roundHalfUp
        (claimedValueExact (claimDelta "08:00" "10:11") false)))) ∨
      ((qMul 2 (claimedValueExact (claimDelta "08:00" "10:11") false)).den = 1 ∧
        (calculateOvertimeDialog "08:00" "10:11" false).map CalcResult.totalValue =
          some (some (cents100 (-(roundHalfUp
            (qNeg (claimedValueExact (claimDelta "08:00" "10:11") false))))))))) :=
  ⟨by decide, by decide,
    C1_amended "08:00" "10:11" false (by decide) (by decide)⟩

end Overtime
